import Mathlib

/-!
Verification of the ClashChat real-time messaging backend against its
natural-language specification.

The development shallowly embeds the repository's presence / messaging core:

* the Socket.IO layer (`src/socket/socketHandler.ts`, read here as
  `src/unnamed/part_007`): the authentication middleware, the connection and
  disconnect handlers, and the `send_message`, `typing`, `stop_typing` and
  `message_read` event handlers built around the module-level
  `onlineUsers : Map<string, string>` presence registry;
* the HTTP message controller (`src/src/controllers/messageController.ts`):
  `getMessages` (history fetch that also marks messages read) and
  `sendMessage`;
* the friend controller (`src/unnamed/part_006`, which contains two
  iterations of `friendController.ts`): `sendFriendRequest`,
  `acceptFriendRequest`, both variants of `rejectFriendRequest`
  (one deletes the pending record, one marks it `rejected`) and
  `removeFriend`;
* the Mongoose schemas (`src/src/models/Message.ts`, `Friendship.ts`),
  in particular the unique compound index on `(requester, recipient)`.

User / message / socket identifiers are embedded as `Nat`.  MongoDB
collections are embedded as Lean lists of records; `findOne`/`findById`
are `List.find?` (first match), `updateMany` is a `List.map`, `deleteOne` /
`findOneAndDelete` are `List.eraseP`, and document `save()` after mutating
one field is a `List.map` over the matching `_id`.  Fresh `_id`s come from
counters (`nextFid`, `nextMid`) in the server state; `createdAt` /
`lastSeen` timestamps are drawn from an abstract clock `now` that no claim
observes.  The JS `Map` registry is an association list observed only
through `get` / `set` / `delete` (nothing in the source iterates it), so
`set` is modelled as erase-then-cons, which has exactly the `Map`
get/delete semantics on every state.  Socket emissions are collected as a
list of (destination socket id, event) pairs, in source emission order;
`populate('sender receiver', ...)` only decorates payloads with user
display fields and is not modelled.
-/

namespace ClashChat

/-- Message delivery status, from `src/src/models/Message.ts` (`sent` /
`delivered` / `read`). -/
inductive MStatus where
  | sent
  | delivered
  | read
deriving DecidableEq, Repr

/-- Numeric rank of a delivery status along the `sent → delivered → read`
order used to state monotonicity. -/
def statusRank : MStatus → Nat
  | .sent => 0
  | .delivered => 1
  | .read => 2

/-- Message kind, from `src/src/models/Message.ts` (`text`/`image`/`file`). -/
inductive MType where
  | text
  | image
  | file
deriving DecidableEq, Repr

/-- Friendship status, from `src/src/models/Friendship.ts`
(`pending`/`accepted`/`rejected`/`blocked`). -/
inductive FStatus where
  | pending
  | accepted
  | rejected
  | blocked
deriving DecidableEq, Repr

/-- Account presence status, from the `User` model (`online`/`offline`/`away`). -/
inductive PStatus where
  | online
  | offline
  | away
deriving DecidableEq, Repr

/-- A `Message` document (`src/src/models/Message.ts`). -/
structure MessageRec where
  id : Nat
  sender : Nat
  receiver : Nat
  content : String
  messageType : MType
  status : MStatus
  createdAt : Nat
deriving DecidableEq, Repr

/-- A `Friendship` document (`src/src/models/Friendship.ts`). -/
structure FriendshipRec where
  id : Nat
  requester : Nat
  recipient : Nat
  status : FStatus
deriving DecidableEq, Repr

/-- A `User` document, restricted to the fields the presence core writes
(`status`, `lastSeen`). -/
structure UserRec where
  id : Nat
  status : PStatus
  lastSeen : Option Nat
deriving DecidableEq, Repr

/-- Events emitted to sockets by the handlers in `src/unnamed/part_007`. -/
inductive EvOut where
  | errorEv (msg : String)
  | userOnline (uid : Nat)
  | userOffline (uid : Nat)
  | receiveMessage (m : MessageRec)
  | messageSent (m : MessageRec)
  | messageReadEv (mid : Nat)
  | typingEv (uid : Nat)
  | stopTypingEv (uid : Nat)
deriving DecidableEq, Repr

/-- An emission: destination socket id paired with the event pushed to it
(`io.to(socketId).emit(...)` / `socket.emit(...)`). -/
abbrev Emission := Nat × EvOut

/-- The server state: the in-memory presence registry `onlineUsers`
(`src/unnamed/part_007` line 11) plus the three durable collections and
the id counters / clock described in the file header. -/
structure ServerState where
  registry : List (Nat × Nat)
  users : List UserRec
  friendships : List FriendshipRec
  messages : List MessageRec
  nextFid : Nat
  nextMid : Nat
  now : Nat
deriving DecidableEq, Repr

/-- Registry lookup `onlineUsers.get(k)`: value of the first (hence, on `Map`-reachable
states, the only) entry with key `k`. -/
def mapGet (m : List (Nat × Nat)) (k : Nat) : Option Nat :=
  (m.find? (fun e => decide (e.1 = k))).map (·.2)

/-- Registry removal `onlineUsers.delete(k)`: remove the entry with key `k`. -/
def mapDelete (m : List (Nat × Nat)) (k : Nat) : List (Nat × Nat) :=
  m.filter (fun e => decide (e.1 ≠ k))

/-- Registry upsert `onlineUsers.set(k, v)`: replace, replacing any prior entry for `k`.
Modelled as erase-then-cons; the registry is only ever observed through
`mapGet` / `mapDelete`, for which this agrees with JS `Map.set`. -/
def mapSet (m : List (Nat × Nat)) (k v : Nat) : List (Nat × Nat) :=
  (k, v) :: mapDelete m k

/-- The query `Friendship.findOne` over both directions with status
`accepted` — the authorization
query used by the `send_message` handler and the message controller. -/
def findAcceptedFriendship (st : ServerState) (a b : Nat) : Option FriendshipRec :=
  st.friendships.find? (fun f =>
    decide (((f.requester = a ∧ f.recipient = b) ∨ (f.requester = b ∧ f.recipient = a))
      ∧ f.status = FStatus.accepted))

/-- The query `Friendship.findOne` over both directions with any status —
the existence query used by
`sendFriendRequest`. -/
def findFriendshipBetween (st : ServerState) (a b : Nat) : Option FriendshipRec :=
  st.friendships.find? (fun f =>
    decide ((f.requester = a ∧ f.recipient = b) ∨ (f.requester = b ∧ f.recipient = a)))

/-- The lookup `Message.findById(i)`. -/
def findMessageById (st : ServerState) (i : Nat) : Option MessageRec :=
  st.messages.find? (fun m => decide (m.id = i))

/-- Delivery status of the message with id `i`, if present. -/
def msgStatus (st : ServerState) (i : Nat) : Option MStatus :=
  (findMessageById st i).map (·.status)

/-- Persisting a status change of the document with `_id = i`
(`message.status = s; await message.save()`). -/
def setMsgStatus (st : ServerState) (i : Nat) (s : MStatus) : ServerState :=
  { st with messages :=
      st.messages.map (fun m => if m.id = i then { m with status := s } else m) }

/-- The update `User.findByIdAndUpdate(uid, ...)` of status and last-seen. -/
def setUserStatus (st : ServerState) (uid : Nat) (s : PStatus)
    (seen : Option Nat) : ServerState :=
  { st with users :=
      st.users.map (fun u =>
        if u.id = uid then
          { u with status := s, lastSeen := seen.orElse (fun _ => u.lastSeen) }
        else u) }

/-- The friend ids computed at connect time (`src/unnamed/part_007` lines
50-58): counterparts of all `accepted` friendships involving `uid`. -/
def acceptedFriendIds (st : ServerState) (uid : Nat) : List Nat :=
  (st.friendships.filter (fun f =>
      decide ((f.requester = uid ∨ f.recipient = uid) ∧ f.status = FStatus.accepted))).map
    (fun f => if f.requester = uid then f.recipient else f.requester)

/-- The `connection` handler (`src/unnamed/part_007` lines 34-65): register
the socket in `onlineUsers`, persist `online`, and push `user_online` to
each accepted friend currently present in the registry. -/
def onConnection (st : ServerState) (uid sid : Nat) : ServerState × List Emission :=
  let reg := mapSet st.registry uid sid
  let st1 := setUserStatus { st with registry := reg } uid PStatus.online none
  let ems := (acceptedFriendIds st uid).filterMap (fun fid =>
    (mapGet reg fid).map (fun fsid => (fsid, EvOut.userOnline uid)))
  (st1, ems)

/-- The `disconnect` handler (`src/unnamed/part_007` lines 148-164): it
deletes `onlineUsers`' entry for `uid` unconditionally (it never consults
`socket.id`, which is why `sid` is unused), persists `offline` with a
last-seen timestamp, and pushes `user_offline` to the friends captured at
connect time (`fids`) that are still present. -/
def onDisconnect (st : ServerState) (uid : Nat) (sid : Nat) (fids : List Nat) :
    ServerState × List Emission :=
  let _ := sid
  let reg := mapDelete st.registry uid
  let st1 := setUserStatus { st with registry := reg } uid PStatus.offline (some st.now)
  let ems := fids.filterMap (fun fid =>
    (mapGet reg fid).map (fun fsid => (fsid, EvOut.userOffline uid)))
  (st1, ems)

/-- The `send_message` socket handler (`src/unnamed/part_007` lines 67-112),
success path: authorize via `findAcceptedFriendship`, create the message in
`sent` state, and if the receiver is registered set it to `delivered`,
persist, and push `receive_message`; always push `message_sent` to the
sender's own socket. -/
def socketSendMessage (st : ServerState) (uid sid rid : Nat) (content : String)
    (mt : Option MType) : ServerState × List Emission :=
  match findAcceptedFriendship st uid rid with
  | none => (st, [(sid, EvOut.errorEv "Not friends with this user")])
  | some _ =>
    let mid := st.nextMid
    let msg : MessageRec :=
      { id := mid, sender := uid, receiver := rid, content := content,
        messageType := mt.getD MType.text, status := MStatus.sent, createdAt := st.now }
    let st1 := { st with messages := st.messages ++ [msg], nextMid := mid + 1 }
    match mapGet st.registry rid with
    | some rsid =>
      let msg2 := { msg with status := MStatus.delivered }
      (setMsgStatus st1 mid MStatus.delivered,
        [(rsid, EvOut.receiveMessage msg2), (sid, EvOut.messageSent msg2)])
    | none => (st1, [(sid, EvOut.messageSent msg)])

/-- The `typing` handler (`src/unnamed/part_007` lines 114-120): forward to
the receiver's registered socket if present, no state change. -/
def socketTyping (st : ServerState) (uid sid rid : Nat) : ServerState × List Emission :=
  let _ := sid
  match mapGet st.registry rid with
  | some rsid => (st, [(rsid, EvOut.typingEv uid)])
  | none => (st, [])

/-- The `stop_typing` handler (`src/unnamed/part_007` lines 122-128). -/
def socketStopTyping (st : ServerState) (uid sid rid : Nat) : ServerState × List Emission :=
  let _ := sid
  match mapGet st.registry rid with
  | some rsid => (st, [(rsid, EvOut.stopTypingEv uid)])
  | none => (st, [])

/-- The `message_read` socket handler (`src/unnamed/part_007` lines
130-146), success path: if the message exists and its receiver is the
caller, set its status to `read`, persist, and push `message_read` to the
original sender's socket if present. -/
def socketMessageRead (st : ServerState) (uid sid mid : Nat) : ServerState × List Emission :=
  let _ := sid
  match findMessageById st mid with
  | some m =>
    if m.receiver = uid then
      let st1 := setMsgStatus st mid MStatus.read
      match mapGet st.registry m.sender with
      | some ssid => (st1, [(ssid, EvOut.messageReadEv mid)])
      | none => (st1, [])
    else (st, [])
  | none => (st, [])

/-- HTTP responses of the modelled Express controllers, reduced to the
observables the spec talks about. -/
inductive HttpResp where
  | err (code : Nat) (title : String)
  | okMessages (msgs : List MessageRec) (unread : Nat)
  | okMessage (m : MessageRec)
  | okFriendship (f : FriendshipRec)
  | okSimple (msg : String)
deriving DecidableEq, Repr

/-- Insert into a list kept sorted by `createdAt` descending (models the
`.sort({createdAt: -1})` of the history query; relative order of equal
timestamps is unspecified in MongoDB). -/
def insertByCreatedDesc (m : MessageRec) : List MessageRec → List MessageRec
  | [] => [m]
  | x :: xs =>
    if m.createdAt ≤ x.createdAt then x :: insertByCreatedDesc m xs
    else m :: x :: xs

/-- Sort by `createdAt` descending. -/
def sortByCreatedDesc (l : List MessageRec) : List MessageRec :=
  l.foldr insertByCreatedDesc []

/-- The controller `getMessages` (`src/src/controllers/messageController.ts` lines 7-59):
after the accepted-friendship check, read one page of the conversation
(sorted descending, `skip` then `limit`, reversed in the response), then
`Message.updateMany({sender: friendId, receiver: userId,
status: {$ne: 'read'}}, {status: 'read'})`.  The `ObjectId` validity check
has no analogue for `Nat` ids and is not modelled. -/
def getMessages (st : ServerState) (userId friendId limit skip : Nat) :
    ServerState × HttpResp :=
  match findAcceptedFriendship st userId friendId with
  | none => (st, HttpResp.err 403 "Not friends")
  | some _ =>
    let page :=
      ((((sortByCreatedDesc (st.messages.filter (fun m =>
          decide ((m.sender = userId ∧ m.receiver = friendId)
            ∨ (m.sender = friendId ∧ m.receiver = userId))))).drop skip).take limit)).reverse
    let unread := (st.messages.filter (fun m =>
      decide (m.sender = friendId ∧ m.receiver = userId ∧ m.status ≠ MStatus.read))).length
    let updated := st.messages.map (fun m =>
      if m.sender = friendId ∧ m.receiver = userId ∧ m.status ≠ MStatus.read then
        { m with status := MStatus.read }
      else m)
    ({ st with messages := updated }, HttpResp.okMessages page unread)

/-- The controller `sendMessage` (`src/src/controllers/messageController.ts` lines 61-104):
required-content check (`!content` — empty string is falsy), accepted-
friendship check, then create the message in `sent` state.  `receiverId` is
a path-level `Nat` here, so the `!receiverId` / `ObjectId` checks have no
analogue. -/
def sendMessage (st : ServerState) (senderId receiverId : Nat) (content : String)
    (mt : Option MType) : ServerState × HttpResp :=
  if content = "" then (st, HttpResp.err 400 "Missing required fields")
  else
    match findAcceptedFriendship st senderId receiverId with
    | none => (st, HttpResp.err 403 "Not friends")
    | some _ =>
      let msg : MessageRec :=
        { id := st.nextMid, sender := senderId, receiver := receiverId,
          content := content, messageType := mt.getD MType.text,
          status := MStatus.sent, createdAt := st.now }
      ({ st with messages := st.messages ++ [msg], nextMid := st.nextMid + 1 },
        HttpResp.okMessage msg)

/-- Shared tail of `sendFriendRequest`: `Friendship.create({requester,
recipient, status: 'pending'})`. -/
def createFriendship (st : ServerState) (requesterId recipientId : Nat) :
    ServerState × HttpResp :=
  let f : FriendshipRec :=
    { id := st.nextFid, requester := requesterId, recipient := recipientId,
      status := FStatus.pending }
  ({ st with friendships := st.friendships ++ [f], nextFid := st.nextFid + 1 },
    HttpResp.okFriendship f)

/-- The controller `sendFriendRequest` (`src/unnamed/part_006` lines 142-217; the second
controller iteration in the same file has identical logic): reject self
requests and unknown recipients; if a friendship already exists in either
direction and is `accepted` or `pending`, reject; otherwise (including
`rejected` / `blocked` records) fall through and create a new `pending`
record with the caller as requester. -/
def sendFriendRequest (st : ServerState) (requesterId recipientId : Nat) :
    ServerState × HttpResp :=
  if recipientId = requesterId then (st, HttpResp.err 400 "Invalid request")
  else
    match st.users.find? (fun u => decide (u.id = recipientId)) with
    | none => (st, HttpResp.err 404 "User not found")
    | some _ =>
      match findFriendshipBetween st requesterId recipientId with
      | some ef =>
        if ef.status = FStatus.accepted then (st, HttpResp.err 400 "Already friends")
        else if ef.status = FStatus.pending then (st, HttpResp.err 400 "Request pending")
        else createFriendship st requesterId recipientId
      | none => createFriendship st requesterId recipientId

/-- The controller `acceptFriendRequest` (`src/unnamed/part_006` lines 219-268 and 585-625,
identical queries): find the pending request addressed to the caller by
`_id` and persist status `accepted`. -/
def acceptFriendRequest (st : ServerState) (userId requestId : Nat) :
    ServerState × HttpResp :=
  match st.friendships.find? (fun f =>
      decide (f.id = requestId ∧ f.recipient = userId ∧ f.status = FStatus.pending)) with
  | none => (st, HttpResp.err 404 "Friend request not found")
  | some f =>
    ({ st with friendships :=
        st.friendships.map (fun g =>
          if g.id = requestId then { g with status := FStatus.accepted } else g) },
      HttpResp.okFriendship { f with status := FStatus.accepted })

/-- First `rejectFriendRequest` iteration (`src/unnamed/part_006` lines
270-323): either side of a pending request may reject/cancel it, and the
record is deleted (`Friendship.deleteOne({_id})`). -/
def rejectFriendRequestDelete (st : ServerState) (userId requestId : Nat) :
    ServerState × HttpResp :=
  match st.friendships.find? (fun f =>
      decide (f.id = requestId ∧ (f.recipient = userId ∨ f.requester = userId)
        ∧ f.status = FStatus.pending)) with
  | none => (st, HttpResp.err 404 "Friend request not found")
  | some _ =>
    ({ st with friendships :=
        st.friendships.eraseP (fun g => decide (g.id = requestId)) },
      HttpResp.okSimple "Request deleted")

/-- Second `rejectFriendRequest` iteration (`src/unnamed/part_006` lines
627-658): the recipient of a pending request rejects it and the record is
kept with status `rejected` (`friendship.status = 'rejected'; save()`). -/
def rejectFriendRequestMark (st : ServerState) (userId requestId : Nat) :
    ServerState × HttpResp :=
  match st.friendships.find? (fun f =>
      decide (f.id = requestId ∧ f.recipient = userId ∧ f.status = FStatus.pending)) with
  | none => (st, HttpResp.err 404 "Friend request not found")
  | some f =>
    ({ st with friendships :=
        st.friendships.map (fun g =>
          if g.id = requestId then { g with status := FStatus.rejected } else g) },
      HttpResp.okFriendship { f with status := FStatus.rejected })

/-- The controller `removeFriend` (`src/unnamed/part_006` lines 325-371 and 660-688):
`Friendship.findOneAndDelete` on the accepted record in either direction. -/
def removeFriend (st : ServerState) (userId friendId : Nat) :
    ServerState × HttpResp :=
  match st.friendships.find? (fun f =>
      decide (((f.requester = userId ∧ f.recipient = friendId)
        ∨ (f.requester = friendId ∧ f.recipient = userId))
        ∧ f.status = FStatus.accepted)) with
  | none => (st, HttpResp.err 404 "Friendship not found")
  | some f =>
    ({ st with friendships :=
        st.friendships.eraseP (fun g => decide (g.id = f.id)) },
      HttpResp.okSimple "Friend removed")

/-- Token resolution of the Socket.IO auth middleware
(`src/unnamed/part_007` line 16): `socket.handshake.auth.token ||
headers.authorization?.split(' ')[1]`. -/
def resolveToken (authToken headerToken : Option Nat) : Option Nat :=
  authToken.orElse (fun _ => headerToken)

/-- Outcome of a connection attempt: rejected by the middleware with an
`Error` message, or connected with the verified identity. -/
inductive ConnResult where
  | rejected (msg : String)
  | connected (uid : Nat)
deriving DecidableEq, Repr

/-- The `io.use` authentication middleware (`src/unnamed/part_007` lines
14-32).  `verify` is the external `verifyAccessToken` collaborator
(`verify(token) -> {identity} | fails`, spec section 6); the repository's
`utils/jwt.ts` wraps a signing library, so it is a parameter here. -/
def socketAuth (verify : Nat → Option Nat) (authToken headerToken : Option Nat) :
    Except String Nat :=
  match resolveToken authToken headerToken with
  | none => Except.error "Authentication error: No token provided"
  | some t =>
    match verify t with
    | some uid => Except.ok uid
    | none => Except.error "Authentication error: Invalid token"

/-- A full connection attempt: run the middleware; on failure the connection
is rejected and the `connection` handler never runs; on success run
`onConnection`. -/
def connectionAttempt (verify : Nat → Option Nat) (authToken headerToken : Option Nat)
    (sid : Nat) (st : ServerState) : ServerState × List Emission × ConnResult :=
  match socketAuth verify authToken headerToken with
  | Except.error e => (st, [], ConnResult.rejected e)
  | Except.ok uid =>
    let r := onConnection st uid sid
    (r.1, r.2, ConnResult.connected uid)

/-- The `send_message` handler including its `try`/`catch`
(`src/unnamed/part_007` lines 74-111).  `dbFail` models the durable store
being unavailable for this event, so the first awaited store access
(`Friendship.findOne`) throws before any write; the `catch` branch (lines
108-111) emits `error` to the caller's own socket and returns normally. -/
def socketSendMessageTry (dbFail : Bool) (st : ServerState) (uid sid rid : Nat)
    (content : String) (mt : Option MType) : ServerState × List Emission :=
  if dbFail then (st, [(sid, EvOut.errorEv "Failed to send message")])
  else socketSendMessage st uid sid rid content mt

/-- The `message_read` handler including its `try`/`catch`
(`src/unnamed/part_007` lines 132-145).  `dbFail` models the durable store
being unavailable, so `Message.findById` throws before any write; the
`catch` branch (lines 143-145) only logs — it emits nothing — and returns
normally. -/
def socketMessageReadTry (dbFail : Bool) (st : ServerState) (uid sid mid : Nat) :
    ServerState × List Emission :=
  if dbFail then (st, [])
  else socketMessageRead st uid sid mid

/-- Every state-bearing operation of the modelled system: socket lifecycle
and events, plus the HTTP message and friend endpoints. -/
inductive Op where
  | connect (uid sid : Nat)
  | disconnect (uid sid : Nat) (fids : List Nat)
  | sendMsg (uid sid rid : Nat) (content : String) (mt : Option MType)
  | typingStart (uid sid rid : Nat)
  | typingStop (uid sid rid : Nat)
  | msgRead (uid sid mid : Nat)
  | httpGetMessages (uid fid limit skip : Nat)
  | httpSendMessage (uid rid : Nat) (content : String) (mt : Option MType)
  | friendRequest (uid rid : Nat)
  | friendAccept (uid reqId : Nat)
  | friendRejectDelete (uid reqId : Nat)
  | friendRejectMark (uid reqId : Nat)
  | friendRemove (uid fid : Nat)
deriving DecidableEq, Repr

/-- State effect of one operation (emissions and HTTP responses dropped). -/
def stepOp : Op → ServerState → ServerState
  | Op.connect uid sid, st => (onConnection st uid sid).1
  | Op.disconnect uid sid fids, st => (onDisconnect st uid sid fids).1
  | Op.sendMsg uid sid rid c mt, st => (socketSendMessage st uid sid rid c mt).1
  | Op.typingStart uid sid rid, st => (socketTyping st uid sid rid).1
  | Op.typingStop uid sid rid, st => (socketStopTyping st uid sid rid).1
  | Op.msgRead uid sid mid, st => (socketMessageRead st uid sid mid).1
  | Op.httpGetMessages uid fid l s, st => (getMessages st uid fid l s).1
  | Op.httpSendMessage uid rid c mt, st => (sendMessage st uid rid c mt).1
  | Op.friendRequest uid rid, st => (sendFriendRequest st uid rid).1
  | Op.friendAccept uid reqId, st => (acceptFriendRequest st uid reqId).1
  | Op.friendRejectDelete uid reqId, st => (rejectFriendRequestDelete st uid reqId).1
  | Op.friendRejectMark uid reqId, st => (rejectFriendRequestMark st uid reqId).1
  | Op.friendRemove uid fid, st => (removeFriend st uid fid).1

/-- Run a sequence of operations, oldest first. -/
def applyOps (ops : List Op) (st : ServerState) : ServerState :=
  ops.foldl (fun s op => stepOp op s) st

/-- Well-formedness of the message store: every stored `_id` is below the
fresh-id counter (true of every state the system constructs, since ids are
allocated from the counter). -/
def WFMsg (st : ServerState) : Prop :=
  ∀ m ∈ st.messages, m.id < st.nextMid

/-- Well-formedness of the friendship store: every stored `_id` is below
the fresh-id counter. -/
def WFFriend (st : ServerState) : Prop :=
  ∀ f ∈ st.friendships, f.id < st.nextFid

/-- The unique compound index of `src/src/models/Friendship.ts` line 34:
`friendshipSchema.index({requester: 1, recipient: 1}, {unique: true})` —
uniqueness of the ordered pair. -/
def orderedPairUnique (l : List FriendshipRec) : Prop :=
  List.Pairwise (fun f g => ¬(f.requester = g.requester ∧ f.recipient = g.recipient)) l

/-! ### Concrete states used by witnesses and counterexamples -/

/-- A small concrete state: users 1 and 2 with an accepted friendship, one
message from 1 to 2 still in `sent` state, nobody connected. -/
def stBase : ServerState :=
  { registry := []
    users := [{ id := 1, status := PStatus.offline, lastSeen := none },
              { id := 2, status := PStatus.offline, lastSeen := none }]
    friendships := [{ id := 0, requester := 1, recipient := 2, status := FStatus.accepted }]
    messages := [{ id := 0, sender := 1, receiver := 2, content := "hi",
                   messageType := MType.text, status := MStatus.sent, createdAt := 0 }]
    nextFid := 1
    nextMid := 1
    now := 5 }

/-- State `stBase` with socket 42 of user 2 registered. -/
def stBaseOnline : ServerState := { stBase with registry := [(2, 42)] }

/-- State `stBase` with socket 41 of user 1 registered. -/
def stBaseSenderOnline : ServerState := { stBase with registry := [(1, 41)] }

/-- Stale-disconnect scenario: user 1 connects with socket 10, then again
with socket 20 (no intervening disconnect), then the first (stale) socket's
`disconnect` handler fires with the friend list captured at its connect. -/
def stStale1 : ServerState := (onConnection stBase 1 10).1

def stStale2 : ServerState := (onConnection stStale1 1 20).1

def stStale3 : ServerState := (onDisconnect stStale2 1 10 (acceptedFriendIds stBase 1)).1

/-- Two registered users and no friendship records at all — the start state
of the friend-request sequences. -/
def stFr : ServerState :=
  { registry := []
    users := [{ id := 1, status := PStatus.offline, lastSeen := none },
              { id := 2, status := PStatus.offline, lastSeen := none }]
    friendships := []
    messages := []
    nextFid := 0
    nextMid := 0
    now := 0 }

/-- The reachable friend-request sequence that leaves relationship records
in both directions: user 2 requests user 1, user 1 rejects it (the
status-marking `rejectFriendRequest` variant), then user 1 requests
user 2 — `sendFriendRequest` finds only the `rejected` record and falls
through to create the reverse-direction record. -/
def stFrBoth : ServerState :=
  applyOps [Op.friendRequest 2 1, Op.friendRejectMark 1 0, Op.friendRequest 1 2] stFr

/-- History-marking scenario for the paginated fetch: three messages from
user 2 to user 1 (statuses `sent`, `delivered`, `read`) and one from 1 to 2,
with an accepted friendship. -/
def stHist : ServerState :=
  { registry := []
    users := [{ id := 1, status := PStatus.offline, lastSeen := none },
              { id := 2, status := PStatus.offline, lastSeen := none }]
    friendships := [{ id := 0, requester := 1, recipient := 2, status := FStatus.accepted }]
    messages := [{ id := 0, sender := 2, receiver := 1, content := "a",
                   messageType := MType.text, status := MStatus.sent, createdAt := 0 },
                 { id := 1, sender := 2, receiver := 1, content := "b",
                   messageType := MType.text, status := MStatus.delivered, createdAt := 1 },
                 { id := 2, sender := 1, receiver := 2, content := "c",
                   messageType := MType.text, status := MStatus.sent, createdAt := 2 },
                 { id := 3, sender := 2, receiver := 1, content := "d",
                   messageType := MType.text, status := MStatus.read, createdAt := 3 }]
    nextFid := 1
    nextMid := 4
    now := 9 }

/-! ### Shared helper lemmas -/

/-- Delivery status of the message with id `i` in a raw store. -/
def findStatus (l : List MessageRec) (i : Nat) : Option MStatus :=
  (l.find? (fun m => decide (m.id = i))).map (·.status)

/-- Statuses in `l'` dominate those in `l`, id by id. -/
def MonoMsgs (l l' : List MessageRec) : Prop :=
  ∀ i s, findStatus l i = some s →
    ∃ s', findStatus l' i = some s' ∧ statusRank s ≤ statusRank s'

theorem msgStatus_eq_findStatus (st : ServerState) (i : Nat) :
    msgStatus st i = findStatus st.messages i := rfl

theorem monoMsgs_refl (l : List MessageRec) : MonoMsgs l l :=
  fun _ s h => ⟨s, h, Nat.le_refl _⟩

theorem monoMsgs_trans {l₁ l₂ l₃ : List MessageRec} (h₁ : MonoMsgs l₁ l₂)
    (h₂ : MonoMsgs l₂ l₃) : MonoMsgs l₁ l₃ := by
  intro i s hs
  obtain ⟨s', hs', hle⟩ := h₁ i s hs
  obtain ⟨s'', hs'', hle'⟩ := h₂ i s' hs'
  exact ⟨s'', hs'', Nat.le_trans hle hle'⟩

theorem find?_append_of_some {α : Type} {p : α → Bool} {l l' : List α} {x : α}
    (h : l.find? p = some x) : (l ++ l').find? p = some x := by
  rw [List.find?_append, h]; rfl

theorem find?_append_of_none {α : Type} {p : α → Bool} {l l' : List α}
    (h : l.find? p = none) : (l ++ l').find? p = l'.find? p := by
  rw [List.find?_append, h]; rfl

theorem map_eq_self_of {α : Type} {f : α → α} {l : List α}
    (h : ∀ a ∈ l, f a = a) : l.map f = l := by
  induction l with
  | nil => rfl
  | cons a t ih =>
    simp only [List.map_cons, h a (List.mem_cons_self a t)]
    rw [ih (fun b hb => h b (List.mem_cons_of_mem a hb))]

theorem monoMsgs_append (l l₂ : List MessageRec) : MonoMsgs l (l ++ l₂) := by
  intro i s hs
  refine ⟨s, ?_, Nat.le_refl _⟩
  unfold findStatus at hs ⊢
  cases hfind : l.find? (fun m => decide (m.id = i)) with
  | none => rw [hfind] at hs; simp at hs
  | some m => rw [find?_append_of_some hfind]; rw [hfind] at hs; exact hs

theorem findStatus_map_of_id_preserving (f : MessageRec → MessageRec)
    (hf : ∀ m, (f m).id = m.id) (l : List MessageRec) (i : Nat) :
    (l.map f).find? (fun m => decide (m.id = i))
      = (l.find? (fun m => decide (m.id = i))).map f := by
  rw [List.find?_map]
  have hp : ((fun m => decide (m.id = i)) ∘ f) = (fun m => decide (m.id = i)) := by
    funext m
    simp only [Function.comp, hf]
  rw [hp]

theorem monoMsgs_map_pointwise (f : MessageRec → MessageRec)
    (hf : ∀ m, (f m).id = m.id)
    (hmono : ∀ m, statusRank m.status ≤ statusRank (f m).status)
    (l : List MessageRec) : MonoMsgs l (l.map f) := by
  intro i s hs
  unfold findStatus at hs ⊢
  cases hfind : l.find? (fun m => decide (m.id = i)) with
  | none => rw [hfind] at hs; simp at hs
  | some m =>
    rw [hfind] at hs
    simp only [Option.map_some'] at hs
    refine ⟨(f m).status, ?_, ?_⟩
    · rw [findStatus_map_of_id_preserving f hf, hfind]; rfl
    · cases hs; exact hmono m

theorem statusRank_le_read (s : MStatus) : statusRank s ≤ statusRank MStatus.read := by
  cases s <;> simp [statusRank]

/-- Updating a fresh id is invisible on a store whose ids all differ from it. -/
theorem map_upd_id_fresh (l : List MessageRec) (j : Nat) (s : MStatus)
    (h : ∀ m ∈ l, m.id ≠ j) :
    l.map (fun m => if m.id = j then { m with status := s } else m) = l :=
  map_eq_self_of (fun m hm => if_neg (h m hm))

theorem mono_wf_of_eq {st st' : ServerState} (hm : st'.messages = st.messages)
    (hn : st'.nextMid = st.nextMid) (hwf : WFMsg st) :
    MonoMsgs st.messages st'.messages ∧ WFMsg st' := by
  constructor
  · rw [hm]; exact monoMsgs_refl _
  · intro m hmem
    rw [hm] at hmem
    rw [hn]
    exact hwf m hmem

theorem mono_wf_append {st st' : ServerState} {msg : MessageRec}
    (hm : st'.messages = st.messages ++ [msg]) (hid : msg.id = st.nextMid)
    (hn : st'.nextMid = st.nextMid + 1) (hwf : WFMsg st) :
    MonoMsgs st.messages st'.messages ∧ WFMsg st' := by
  constructor
  · rw [hm]; exact monoMsgs_append _ _
  · intro m hmem
    rw [hm] at hmem
    rw [hn]
    rcases List.mem_append.mp hmem with h | h
    · exact Nat.lt_succ_of_lt (hwf m h)
    · simp only [List.mem_singleton] at h
      subst h
      rw [hid]
      exact Nat.lt_succ_self _

theorem mono_wf_map {st st' : ServerState} {f : MessageRec → MessageRec}
    (hm : st'.messages = st.messages.map f) (hn : st'.nextMid = st.nextMid)
    (hid : ∀ m, (f m).id = m.id)
    (hmono : ∀ m, statusRank m.status ≤ statusRank (f m).status)
    (hwf : WFMsg st) : MonoMsgs st.messages st'.messages ∧ WFMsg st' := by
  constructor
  · rw [hm]; exact monoMsgs_map_pointwise f hid hmono _
  · intro m hmem
    rw [hm] at hmem
    obtain ⟨a, ha, rfl⟩ := List.mem_map.mp hmem
    rw [hn, hid]
    exact hwf a ha

theorem socketTyping_fst (st : ServerState) (uid sid rid : Nat) :
    (socketTyping st uid sid rid).1 = st := by
  unfold socketTyping
  cases mapGet st.registry rid <;> rfl

theorem socketStopTyping_fst (st : ServerState) (uid sid rid : Nat) :
    (socketStopTyping st uid sid rid).1 = st := by
  unfold socketStopTyping
  cases mapGet st.registry rid <;> rfl

theorem sendFriendRequest_frame (st : ServerState) (a b : Nat) :
    (sendFriendRequest st a b).1.messages = st.messages
      ∧ (sendFriendRequest st a b).1.nextMid = st.nextMid := by
  unfold sendFriendRequest createFriendship
  repeat' split
  all_goals exact ⟨rfl, rfl⟩

theorem acceptFriendRequest_frame (st : ServerState) (a b : Nat) :
    (acceptFriendRequest st a b).1.messages = st.messages
      ∧ (acceptFriendRequest st a b).1.nextMid = st.nextMid := by
  unfold acceptFriendRequest
  repeat' split
  all_goals exact ⟨rfl, rfl⟩

theorem rejectFriendRequestDelete_frame (st : ServerState) (a b : Nat) :
    (rejectFriendRequestDelete st a b).1.messages = st.messages
      ∧ (rejectFriendRequestDelete st a b).1.nextMid = st.nextMid := by
  unfold rejectFriendRequestDelete
  repeat' split
  all_goals exact ⟨rfl, rfl⟩

theorem rejectFriendRequestMark_frame (st : ServerState) (a b : Nat) :
    (rejectFriendRequestMark st a b).1.messages = st.messages
      ∧ (rejectFriendRequestMark st a b).1.nextMid = st.nextMid := by
  unfold rejectFriendRequestMark
  repeat' split
  all_goals exact ⟨rfl, rfl⟩

theorem removeFriend_frame (st : ServerState) (a b : Nat) :
    (removeFriend st a b).1.messages = st.messages
      ∧ (removeFriend st a b).1.nextMid = st.nextMid := by
  unfold removeFriend
  repeat' split
  all_goals exact ⟨rfl, rfl⟩

/-- Evaluation of the authorized `send_message` path when the receiver is
offline: one message is appended in `sent` state and only the
`message_sent` acknowledgement goes back to the sender. -/
theorem socketSendMessage_offline (st : ServerState) (uid sid rid : Nat)
    (c : String) (mt : Option MType) (f : FriendshipRec)
    (hf : findAcceptedFriendship st uid rid = some f)
    (hr : mapGet st.registry rid = none) :
    socketSendMessage st uid sid rid c mt =
      ({ st with
          messages := st.messages ++
            [{ id := st.nextMid, sender := uid, receiver := rid, content := c,
               messageType := mt.getD MType.text, status := MStatus.sent,
               createdAt := st.now }],
          nextMid := st.nextMid + 1 },
        [(sid, EvOut.messageSent
          { id := st.nextMid, sender := uid, receiver := rid, content := c,
            messageType := mt.getD MType.text, status := MStatus.sent,
            createdAt := st.now })]) := by
  simp only [socketSendMessage, hf, hr]

/-- Evaluation of the authorized `send_message` path when the receiver is
registered (on a store with fresh ids): the one appended message ends up
`delivered`, `receive_message` goes to the receiver's socket and the
`message_sent` acknowledgement carries the delivered message. -/
theorem socketSendMessage_delivered (st : ServerState) (uid sid rid : Nat)
    (c : String) (mt : Option MType) (f : FriendshipRec) (rsid : Nat)
    (hf : findAcceptedFriendship st uid rid = some f)
    (hr : mapGet st.registry rid = some rsid)
    (hfresh : ∀ m ∈ st.messages, m.id ≠ st.nextMid) :
    socketSendMessage st uid sid rid c mt =
      ({ st with
          messages := st.messages ++
            [{ id := st.nextMid, sender := uid, receiver := rid, content := c,
               messageType := mt.getD MType.text, status := MStatus.delivered,
               createdAt := st.now }],
          nextMid := st.nextMid + 1 },
        [(rsid, EvOut.receiveMessage
            { id := st.nextMid, sender := uid, receiver := rid, content := c,
              messageType := mt.getD MType.text, status := MStatus.delivered,
              createdAt := st.now }),
         (sid, EvOut.messageSent
            { id := st.nextMid, sender := uid, receiver := rid, content := c,
              messageType := mt.getD MType.text, status := MStatus.delivered,
              createdAt := st.now })]) := by
  simp only [socketSendMessage, hf, hr, setMsgStatus]
  rw [List.map_append, map_upd_id_fresh _ _ _ hfresh]
  simp

theorem stepOp_mono (op : Op) (st : ServerState) (hwf : WFMsg st) :
    MonoMsgs st.messages (stepOp op st).messages ∧ WFMsg (stepOp op st) := by
  cases op with
  | connect uid sid => exact mono_wf_of_eq rfl rfl hwf
  | disconnect uid sid fids => exact mono_wf_of_eq rfl rfl hwf
  | typingStart uid sid rid =>
    simp only [stepOp]
    rw [socketTyping_fst]
    exact ⟨monoMsgs_refl _, hwf⟩
  | typingStop uid sid rid =>
    simp only [stepOp]
    rw [socketStopTyping_fst]
    exact ⟨monoMsgs_refl _, hwf⟩
  | sendMsg uid sid rid c mt =>
    simp only [stepOp]
    cases hf : findAcceptedFriendship st uid rid with
    | none =>
      have h : socketSendMessage st uid sid rid c mt =
          (st, [(sid, EvOut.errorEv "Not friends with this user")]) := by
        simp only [socketSendMessage, hf]
      rw [h]
      exact mono_wf_of_eq rfl rfl hwf
    | some f =>
      cases hr : mapGet st.registry rid with
      | none =>
        rw [socketSendMessage_offline st uid sid rid c mt f hf hr]
        exact mono_wf_append rfl rfl rfl hwf
      | some rsid =>
        have hfresh : ∀ m ∈ st.messages, m.id ≠ st.nextMid :=
          fun m hm => Nat.ne_of_lt (hwf m hm)
        rw [socketSendMessage_delivered st uid sid rid c mt f rsid hf hr hfresh]
        exact mono_wf_append rfl rfl rfl hwf
  | msgRead uid sid mid =>
    simp only [stepOp]
    unfold socketMessageRead
    cases hf : findMessageById st mid with
    | none => exact mono_wf_of_eq rfl rfl hwf
    | some m =>
      by_cases hrecv : m.receiver = uid
      · simp only [hrecv, if_pos rfl]
        cases hs : mapGet st.registry m.sender with
        | none =>
          refine mono_wf_map (f := fun x =>
            if x.id = mid then { x with status := MStatus.read } else x) rfl rfl ?_ ?_ hwf
          · intro x; by_cases h : x.id = mid <;> simp [h]
          · intro x; by_cases h : x.id = mid <;> simp [h, statusRank_le_read]
        | some ssid =>
          refine mono_wf_map (f := fun x =>
            if x.id = mid then { x with status := MStatus.read } else x) rfl rfl ?_ ?_ hwf
          · intro x; by_cases h : x.id = mid <;> simp [h]
          · intro x; by_cases h : x.id = mid <;> simp [h, statusRank_le_read]
      · simp only [if_neg hrecv]
        exact mono_wf_of_eq rfl rfl hwf
  | httpGetMessages uid fid l sk =>
    simp only [stepOp]
    unfold getMessages
    cases hf : findAcceptedFriendship st uid fid with
    | none => exact mono_wf_of_eq rfl rfl hwf
    | some f =>
      refine mono_wf_map (f := fun m =>
        if m.sender = fid ∧ m.receiver = uid ∧ m.status ≠ MStatus.read then
          { m with status := MStatus.read }
        else m) rfl rfl ?_ ?_ hwf
      · intro m
        by_cases h : m.sender = fid ∧ m.receiver = uid ∧ m.status ≠ MStatus.read <;> simp [h]
      · intro m
        by_cases h : m.sender = fid ∧ m.receiver = uid ∧ m.status ≠ MStatus.read <;>
          simp [h, statusRank_le_read]
  | httpSendMessage uid rid c mt =>
    simp only [stepOp]
    unfold sendMessage
    by_cases hc : c = ""
    · simp only [if_pos hc]
      exact mono_wf_of_eq rfl rfl hwf
    · simp only [if_neg hc]
      cases hf : findAcceptedFriendship st uid rid with
      | none => exact mono_wf_of_eq rfl rfl hwf
      | some f => exact mono_wf_append rfl rfl rfl hwf
  | friendRequest uid rid =>
    exact mono_wf_of_eq (sendFriendRequest_frame st uid rid).1
      (sendFriendRequest_frame st uid rid).2 hwf
  | friendAccept uid reqId =>
    exact mono_wf_of_eq (acceptFriendRequest_frame st uid reqId).1
      (acceptFriendRequest_frame st uid reqId).2 hwf
  | friendRejectDelete uid reqId =>
    exact mono_wf_of_eq (rejectFriendRequestDelete_frame st uid reqId).1
      (rejectFriendRequestDelete_frame st uid reqId).2 hwf
  | friendRejectMark uid reqId =>
    exact mono_wf_of_eq (rejectFriendRequestMark_frame st uid reqId).1
      (rejectFriendRequestMark_frame st uid reqId).2 hwf
  | friendRemove uid fid =>
    exact mono_wf_of_eq (removeFriend_frame st uid fid).1
      (removeFriend_frame st uid fid).2 hwf

theorem applyOps_mono (ops : List Op) (st : ServerState) (hwf : WFMsg st) :
    MonoMsgs st.messages (applyOps ops st).messages ∧ WFMsg (applyOps ops st) := by
  induction ops generalizing st with
  | nil => exact ⟨monoMsgs_refl _, hwf⟩
  | cons op rest ih =>
    have h1 := stepOp_mono op st hwf
    have h2 := ih (stepOp op st) h1.2
    exact ⟨monoMsgs_trans h1.1 h2.1, h2.2⟩

theorem mapGet_mapDelete (m : List (Nat × Nat)) (k : Nat) :
    mapGet (mapDelete m k) k = none := by
  unfold mapGet mapDelete
  have h : (m.filter fun e => decide (e.1 ≠ k)).find? (fun e => decide (e.1 = k)) = none := by
    rw [List.find?_eq_none]
    intro x hx
    have h2 := (List.mem_filter.mp hx).2
    simp only [decide_eq_true_eq] at h2 ⊢
    exact h2
  rw [h]
  rfl

theorem filter_key_mapDelete (m : List (Nat × Nat)) (k : Nat) :
    (mapDelete m k).filter (fun e => decide (e.1 = k)) = [] := by
  unfold mapDelete
  rw [List.filter_filter, List.filter_eq_nil_iff]
  intro x hx
  simp

/-! ### Claims -/

/-- C1, counterexample.  The claim says the disconnect of a stale
(overwritten) connection leaves the identity's current registry entry
unchanged.  Concretely: user 1 connects with socket 10, reconnects with
socket 20 (`stStale2`, where the registry maps 1 to 20), and then the stale
socket 10 fires its `disconnect` handler (`stStale3`).  The handler runs
`onlineUsers.delete(userId)` unconditionally, so the mapping to socket 20
is gone afterwards, refuting the claim. -/
theorem stale_disconnect_removes_current_entry_cex :
    mapGet stStale2.registry 1 = some 20 ∧ mapGet stStale3.registry 1 ≠ some 20 := by
  decide

/-- C1, amended.  The `disconnect` handler (`src/unnamed/part_007` lines
148-164) removes the identity's Presence Registry entry unconditionally —
it never compares the mapped socket with the disconnecting one — so after
any disconnect for `uid`, including a stale one, the registry has no entry
for `uid` at all. -/
theorem disconnect_clears_registry_entry_unconditionally (st : ServerState)
    (uid sid : Nat) (fids : List Nat) :
    mapGet ((onDisconnect st uid sid fids).1).registry uid = none :=
  mapGet_mapDelete st.registry uid

/-- C2.  If no `accepted` relationship exists between the caller and the
receiver, the `send_message` handler leaves the whole server state
unchanged (in particular it creates no Message) and its only emission is a
single `error` event to the caller's own socket. -/
theorem send_message_unauthorized (st : ServerState) (uid sid rid : Nat)
    (c : String) (mt : Option MType)
    (h : findAcceptedFriendship st uid rid = none) :
    socketSendMessage st uid sid rid c mt
      = (st, [(sid, EvOut.errorEv "Not friends with this user")]) := by
  simp only [socketSendMessage, h]

/-- C2, witness: user 1 sends to the unrelated user 3 in `stBase`. -/
theorem send_message_unauthorized_witness :
    findAcceptedFriendship stBase 1 3 = none ∧
      socketSendMessage stBase 1 40 3 "yo" none
        = (stBase, [(40, EvOut.errorEv "Not friends with this user")]) :=
  ⟨by decide, send_message_unauthorized stBase 1 40 3 "yo" none (by decide)⟩

/-- C6, counterexample.  The claim says every persistence failure in the
`send_message` and `message_read` handlers is surfaced as an `error` event
to the calling connection.  For `message_read` the `catch` block
(`src/unnamed/part_007` lines 143-145) only logs: with the store failing,
the handler emits nothing at all — in particular no `error` event reaches
the caller's socket 11. -/
theorem message_read_db_failure_emits_nothing_cex :
    (socketMessageReadTry true stBase 2 11 0).2 = [] := rfl

/-- C6, amended.  A persistence failure in either handler is caught
per-event and the handler returns normally with the state unchanged
(nothing crashes); `send_message` surfaces it as an `error` event to the
caller's own socket, while `message_read` only logs it and emits no event
at all. -/
theorem storage_failure_caught_per_event (st : ServerState) (uid sid rid mid : Nat)
    (c : String) (mt : Option MType) :
    socketSendMessageTry true st uid sid rid c mt
        = (st, [(sid, EvOut.errorEv "Failed to send message")])
      ∧ socketMessageReadTry true st uid sid mid = (st, []) :=
  ⟨rfl, rfl⟩

/-- C3.  On an accepted pair, `send_message` appends exactly one new
Message, constructed in `sent` state (`base`); it is persisted as
`delivered` exactly when the receiver is in the Presence Registry at send
time, in which case `receive_message` is pushed to the receiver's
registered socket; the `message_sent` acknowledgement always goes to the
sender's own socket and carries the message.  (`hwf` says stored ids are
below the fresh-id counter, which every reachable store satisfies.) -/
theorem send_message_accepted_delivery (st : ServerState) (uid sid rid : Nat)
    (c : String) (mt : Option MType) (f : FriendshipRec)
    (hwf : WFMsg st) (hf : findAcceptedFriendship st uid rid = some f) :
    (mapGet st.registry rid = none →
      socketSendMessage st uid sid rid c mt =
        ({ st with
            messages := st.messages ++
              [{ id := st.nextMid, sender := uid, receiver := rid, content := c,
                 messageType := mt.getD MType.text, status := MStatus.sent,
                 createdAt := st.now }],
            nextMid := st.nextMid + 1 },
          [(sid, EvOut.messageSent
            { id := st.nextMid, sender := uid, receiver := rid, content := c,
              messageType := mt.getD MType.text, status := MStatus.sent,
              createdAt := st.now })]))
    ∧ (∀ rsid, mapGet st.registry rid = some rsid →
      socketSendMessage st uid sid rid c mt =
        ({ st with
            messages := st.messages ++
              [{ id := st.nextMid, sender := uid, receiver := rid, content := c,
                 messageType := mt.getD MType.text, status := MStatus.delivered,
                 createdAt := st.now }],
            nextMid := st.nextMid + 1 },
          [(rsid, EvOut.receiveMessage
              { id := st.nextMid, sender := uid, receiver := rid, content := c,
                messageType := mt.getD MType.text, status := MStatus.delivered,
                createdAt := st.now }),
           (sid, EvOut.messageSent
              { id := st.nextMid, sender := uid, receiver := rid, content := c,
                messageType := mt.getD MType.text, status := MStatus.delivered,
                createdAt := st.now })])) := by
  constructor
  · intro hr
    exact socketSendMessage_offline st uid sid rid c mt f hf hr
  · intro rsid hr
    exact socketSendMessage_delivered st uid sid rid c mt f rsid hf hr
      (fun m hm => Nat.ne_of_lt (hwf m hm))

/-- C3, witness: user 1 sends "hello" to user 2 while 2's socket 42 is
registered (`stBaseOnline`). -/
theorem send_message_accepted_delivery_witness :
    (∀ m ∈ stBaseOnline.messages, m.id < stBaseOnline.nextMid)
      ∧ findAcceptedFriendship stBaseOnline 1 2
        = some { id := 0, requester := 1, recipient := 2, status := FStatus.accepted }
      ∧ ((mapGet stBaseOnline.registry 2 = none →
          socketSendMessage stBaseOnline 1 40 2 "hello" none =
            ({ stBaseOnline with
                messages := stBaseOnline.messages ++
                  [{ id := stBaseOnline.nextMid, sender := 1, receiver := 2,
                     content := "hello", messageType := MType.text,
                     status := MStatus.sent, createdAt := stBaseOnline.now }],
                nextMid := stBaseOnline.nextMid + 1 },
              [(40, EvOut.messageSent
                { id := stBaseOnline.nextMid, sender := 1, receiver := 2,
                  content := "hello", messageType := MType.text,
                  status := MStatus.sent, createdAt := stBaseOnline.now })]))
        ∧ (∀ rsid, mapGet stBaseOnline.registry 2 = some rsid →
          socketSendMessage stBaseOnline 1 40 2 "hello" none =
            ({ stBaseOnline with
                messages := stBaseOnline.messages ++
                  [{ id := stBaseOnline.nextMid, sender := 1, receiver := 2,
                     content := "hello", messageType := MType.text,
                     status := MStatus.delivered, createdAt := stBaseOnline.now }],
                nextMid := stBaseOnline.nextMid + 1 },
              [(rsid, EvOut.receiveMessage
                  { id := stBaseOnline.nextMid, sender := 1, receiver := 2,
                    content := "hello", messageType := MType.text,
                    status := MStatus.delivered, createdAt := stBaseOnline.now }),
               (40, EvOut.messageSent
                  { id := stBaseOnline.nextMid, sender := 1, receiver := 2,
                    content := "hello", messageType := MType.text,
                    status := MStatus.delivered, createdAt := stBaseOnline.now })]))) :=
  ⟨by decide, by decide,
    send_message_accepted_delivery stBaseOnline 1 40 2 "hello" none
      { id := 0, requester := 1, recipient := 2, status := FStatus.accepted }
      (by unfold WFMsg; decide) (by decide)⟩

/-- C4.  Along any sequence of system operations (socket lifecycle and
events, HTTP message endpoints, friend endpoints), the delivery status of
any given message id only moves forward in the `sent → delivered → read`
order: it is monotonically non-decreasing, so no reachable sequence ever
returns a `read` or `delivered` message to an earlier status. -/
theorem message_status_monotone (ops : List Op) (st : ServerState) (i : Nat)
    (s s' : MStatus) (hwf : WFMsg st) (h1 : msgStatus st i = some s)
    (h2 : msgStatus (applyOps ops st) i = some s') :
    statusRank s ≤ statusRank s' := by
  obtain ⟨s'', hs'', hle⟩ := (applyOps_mono ops st hwf).1 i s h1
  rw [msgStatus_eq_findStatus] at h2
  rw [h2] at hs''
  injection hs'' with h
  rw [h]
  exact hle

/-- C4, witness: in `stBase`, message 0 is `sent`; after the receiver marks
it read over the socket it is `read`, and the rank comparison holds. -/
theorem message_status_monotone_witness :
    (∀ m ∈ stBase.messages, m.id < stBase.nextMid)
      ∧ msgStatus stBase 0 = some MStatus.sent
      ∧ msgStatus (applyOps [Op.msgRead 2 11 0] stBase) 0 = some MStatus.read
      ∧ statusRank MStatus.sent ≤ statusRank MStatus.read :=
  ⟨by decide, by decide, by decide,
    message_status_monotone [Op.msgRead 2 11 0] stBase 0 MStatus.sent MStatus.read
      (by unfold WFMsg; decide) (by decide) (by decide)⟩

/-- C7.  A connection attempt that supplies no bearer token, or whose token
fails verification, is rejected by the `io.use` middleware with an
authentication error before the `connection` handler runs: the returned
state is the input state (no Presence Registry mutation, no account-status
write) and nothing is emitted. -/
theorem auth_failure_rejected_without_mutation (verify : Nat → Option Nat)
    (authToken headerToken : Option Nat) (sid : Nat) (st : ServerState)
    (h : resolveToken authToken headerToken = none
      ∨ ∃ t, resolveToken authToken headerToken = some t ∧ verify t = none) :
    ∃ msg, connectionAttempt verify authToken headerToken sid st
      = (st, [], ConnResult.rejected msg) := by
  rcases h with h | ⟨t, ht, hv⟩
  · refine ⟨"Authentication error: No token provided", ?_⟩
    simp [connectionAttempt, socketAuth, h]
  · refine ⟨"Authentication error: Invalid token", ?_⟩
    simp [connectionAttempt, socketAuth, ht, hv]

/-- C7, witness: no token at all, with a verifier that rejects
everything. -/
theorem auth_failure_rejected_without_mutation_witness :
    (resolveToken (none : Option Nat) (none : Option Nat) = none
        ∨ ∃ t, resolveToken (none : Option Nat) (none : Option Nat) = some t
            ∧ (fun _ : Nat => (none : Option Nat)) t = none)
      ∧ ∃ msg, connectionAttempt (fun _ => none) none none 7 stBase
          = (stBase, [], ConnResult.rejected msg) :=
  ⟨Or.inl rfl,
    auth_failure_rejected_without_mutation (fun _ => none) none none 7 stBase
      (Or.inl rfl)⟩

/-- C8.  After two successive authenticated connects by the same identity
`A` (sockets `s1` then `s2`, no intervening disconnect), the Presence
Registry holds exactly one entry for `A` and it maps to `s2`; the routing
lookup every handler uses (`onlineUsers.get`) yields `s2`, and a
representative live event destined for `A` (a `typing` event from `B`) is
emitted only to `s2`. -/
theorem double_connect_overwrites_entry (st : ServerState) (A s1 s2 B sb : Nat) :
    ((onConnection ((onConnection st A s1).1) A s2).1.registry.filter
        (fun e => decide (e.1 = A))) = [(A, s2)]
      ∧ mapGet (onConnection ((onConnection st A s1).1) A s2).1.registry A = some s2
      ∧ (socketTyping (onConnection ((onConnection st A s1).1) A s2).1 B sb A).2
          = [(s2, EvOut.typingEv B)] := by
  have hreg : (onConnection ((onConnection st A s1).1) A s2).1.registry
      = (A, s2) :: mapDelete (mapSet st.registry A s1) A := rfl
  have hget : mapGet (onConnection ((onConnection st A s1).1) A s2).1.registry A
      = some s2 := by
    rw [hreg]
    simp [mapGet]
  refine ⟨?_, hget, ?_⟩
  · rw [hreg]
    simp only [List.filter_cons]
    simp [filter_key_mapDelete]
  · simp [socketTyping, hget]

/-- C9.  A `message_read` event from caller `uid` for an existing message
`m` whose receiver is `uid`: the message's status is persisted as `read`
(the store is updated at that id and the lookup now returns `read`), and a
`message_read` event carrying the id is pushed to the original sender's
registered socket exactly when the sender is present in the registry. -/
theorem message_read_success (st : ServerState) (uid sid mid : Nat) (m : MessageRec)
    (hfind : findMessageById st mid = some m) (hrecv : m.receiver = uid) :
    (socketMessageRead st uid sid mid).1.messages
        = st.messages.map (fun x => if x.id = mid then { x with status := MStatus.read } else x)
      ∧ msgStatus (socketMessageRead st uid sid mid).1 mid = some MStatus.read
      ∧ (socketMessageRead st uid sid mid).2
          = (match mapGet st.registry m.sender with
             | some ssid => [(ssid, EvOut.messageReadEv mid)]
             | none => []) := by
  have hid : m.id = mid := by
    have h := List.find?_some hfind
    simpa using h
  have hread : msgStatus (setMsgStatus st mid MStatus.read) mid = some MStatus.read := by
    unfold msgStatus findMessageById setMsgStatus
    rw [findStatus_map_of_id_preserving
      (fun x => if x.id = mid then { x with status := MStatus.read } else x)
      (fun x => by by_cases h : x.id = mid <;> simp [h])]
    unfold findMessageById at hfind
    rw [hfind]
    simp [hid]
  simp only [socketMessageRead, hfind, if_pos hrecv]
  cases hs : mapGet st.registry m.sender with
  | none => exact ⟨rfl, hread, rfl⟩
  | some ssid => exact ⟨rfl, hread, rfl⟩

/-- C9, witness: user 2 marks message 0 (receiver 2) read while the
original sender 1 is registered on socket 41 (`stBaseSenderOnline`). -/
theorem message_read_success_witness :
    findMessageById stBaseSenderOnline 0
        = some { id := 0, sender := 1, receiver := 2, content := "hi",
                 messageType := MType.text, status := MStatus.sent, createdAt := 0 }
      ∧ ((socketMessageRead stBaseSenderOnline 2 11 0).1.messages
          = stBaseSenderOnline.messages.map
              (fun x => if x.id = 0 then { x with status := MStatus.read } else x)
        ∧ msgStatus (socketMessageRead stBaseSenderOnline 2 11 0).1 0
            = some MStatus.read
        ∧ (socketMessageRead stBaseSenderOnline 2 11 0).2
            = (match mapGet stBaseSenderOnline.registry 1 with
               | some ssid => [(ssid, EvOut.messageReadEv 0)]
               | none => [])) :=
  ⟨by decide,
    message_read_success stBaseSenderOnline 2 11 0
      { id := 0, sender := 1, receiver := 2, content := "hi",
        messageType := MType.text, status := MStatus.sent, createdAt := 0 }
      (by decide) (by decide)⟩

/-- C10.  A single history fetch `getMessages` for user `U` with friend `F`
marks every stored message from `F` to `U` as `read`, and the resulting
state does not depend on the `limit` / `skip` pagination parameters at all
(so messages outside the returned page are marked too); no message is
dropped, and messages not from `F` to `U` are left unchanged. -/
theorem get_messages_marks_all_inbound (st : ServerState)
    (U F lim skip lim' skip' : Nat) (f : FriendshipRec)
    (hf : findAcceptedFriendship st U F = some f) :
    (getMessages st U F lim skip).1 = (getMessages st U F lim' skip').1
      ∧ (∀ m ∈ (getMessages st U F lim skip).1.messages,
          m.sender = F → m.receiver = U → m.status = MStatus.read)
      ∧ (getMessages st U F lim skip).1.messages.length = st.messages.length
      ∧ (∀ m ∈ (getMessages st U F lim skip).1.messages,
          ¬(m.sender = F ∧ m.receiver = U) → m ∈ st.messages) := by
  simp only [getMessages, hf]
  refine ⟨by trivial, ?_, by simp, ?_⟩
  · intro m hm hs hr
    obtain ⟨a, ha, rfl⟩ := List.mem_map.mp hm
    by_cases h : a.sender = F ∧ a.receiver = U ∧ a.status ≠ MStatus.read
    · rw [if_pos h]
    · rw [if_neg h] at hs hr ⊢
      by_contra hne
      exact h ⟨hs, hr, hne⟩
  · intro m hm hnot
    obtain ⟨a, ha, rfl⟩ := List.mem_map.mp hm
    by_cases h : a.sender = F ∧ a.receiver = U ∧ a.status ≠ MStatus.read
    · exfalso
      rw [if_pos h] at hnot
      exact hnot ⟨h.1, h.2.1⟩
    · rw [if_neg h]
      exact ha

/-- C10, witness: in `stHist` user 1 fetches one page (`limit 1`) of the
history with friend 2 — the theorem's conclusions hold, in particular the
state equals the one produced with a different page (`limit 2, skip 1`). -/
theorem get_messages_marks_all_inbound_witness :
    findAcceptedFriendship stHist 1 2
        = some { id := 0, requester := 1, recipient := 2, status := FStatus.accepted }
      ∧ ((getMessages stHist 1 2 1 0).1 = (getMessages stHist 1 2 2 1).1
        ∧ (∀ m ∈ (getMessages stHist 1 2 1 0).1.messages,
            m.sender = 2 → m.receiver = 1 → m.status = MStatus.read)
        ∧ (getMessages stHist 1 2 1 0).1.messages.length = stHist.messages.length
        ∧ (∀ m ∈ (getMessages stHist 1 2 1 0).1.messages,
            ¬(m.sender = 2 ∧ m.receiver = 1) → m ∈ stHist.messages)) :=
  ⟨by decide,
    get_messages_marks_all_inbound stHist 1 2 1 0 2 1
      { id := 0, requester := 1, recipient := 2, status := FStatus.accepted }
      (by decide)⟩

theorem findFriendshipBetween_symm_none (st : ServerState) (a b : Nat)
    (h : findFriendshipBetween st a b = none) : findFriendshipBetween st b a = none := by
  unfold findFriendshipBetween at h ⊢
  rw [List.find?_eq_none] at h ⊢
  intro x hx
  have h2 := h x hx
  simp only [decide_eq_true_eq] at h2 ⊢
  tauto

/-- C5, counterexample.  The claim says at most one relationship record can
exist per unordered pair and that no reachable sequence of friend-request
operations leaves both directions in the store.  `stFrBoth` is reached from
`stFr` (two users, no relationships) by: user 2 requests user 1; user 1
rejects via the status-marking `rejectFriendRequest` variant (the record is
kept with status `rejected`); user 1 requests user 2 — `sendFriendRequest`
finds only the `rejected` record and falls through to create the reverse
record.  Both a `(requester 2, recipient 1)` and a `(requester 1,
recipient 2)` record are then in the store: the `(requester, recipient)`
unique index of `Friendship.ts` line 34 is ordered and does not prevent
this. -/
theorem friendship_both_directions_reachable_cex :
    (∃ f ∈ stFrBoth.friendships, f.requester = 2 ∧ f.recipient = 1)
      ∧ (∃ g ∈ stFrBoth.friendships, g.requester = 1 ∧ g.recipient = 2) := by
  decide

/-- C5, amended.  The uniqueness constraint of `Friendship.ts` line 34 is
over the *ordered* `(requester, recipient)` pair, and the friend-request
operations do not maintain uniqueness per unordered pair: from any state
whose store has fresh ids, ordered-pair uniqueness, registered users `A`
and `B` and no relationship between them, the reachable sequence "B
requests A; A rejects (status-marking variant); A requests B" leaves a
`(B, A)` `rejected` record *and* an `(A, B)` `pending` record in the store
— while the ordered-pair uniqueness index is still satisfied. -/
theorem reject_then_reverse_request_breaks_unordered_uniqueness
    (st : ServerState) (A B : Nat) (uA uB : UserRec)
    (hne : A ≠ B)
    (hA : st.users.find? (fun u => decide (u.id = A)) = some uA)
    (hB : st.users.find? (fun u => decide (u.id = B)) = some uB)
    (hnone : findFriendshipBetween st B A = none)
    (hwf : WFFriend st)
    (hord : orderedPairUnique st.friendships) :
    (∃ f ∈ (applyOps [Op.friendRequest B A, Op.friendRejectMark A st.nextFid,
          Op.friendRequest A B] st).friendships,
        f.requester = B ∧ f.recipient = A ∧ f.status = FStatus.rejected)
      ∧ (∃ g ∈ (applyOps [Op.friendRequest B A, Op.friendRejectMark A st.nextFid,
          Op.friendRequest A B] st).friendships,
        g.requester = A ∧ g.recipient = B ∧ g.status = FStatus.pending)
      ∧ orderedPairUnique (applyOps [Op.friendRequest B A, Op.friendRejectMark A st.nextFid,
          Op.friendRequest A B] st).friendships := by
  have hfresh : ∀ g ∈ st.friendships, g.id ≠ st.nextFid :=
    fun g hg => Nat.ne_of_lt (hwf g hg)
  have h1 : stepOp (Op.friendRequest B A) st
      = { st with
          friendships := st.friendships ++
            [{ id := st.nextFid, requester := B, recipient := A,
               status := FStatus.pending }],
          nextFid := st.nextFid + 1 } := by
    simp [stepOp, sendFriendRequest, createFriendship, hA, hnone, hne]
  have hpnone : st.friendships.find? (fun f =>
      decide (f.id = st.nextFid ∧ f.recipient = A ∧ f.status = FStatus.pending)) = none := by
    rw [List.find?_eq_none]
    intro x hx
    simp only [decide_eq_true_eq]
    rintro ⟨hx1, -, -⟩
    exact hfresh x hx hx1
  have h2 : stepOp (Op.friendRejectMark A st.nextFid)
      { st with
        friendships := st.friendships ++
          [{ id := st.nextFid, requester := B, recipient := A,
             status := FStatus.pending }],
        nextFid := st.nextFid + 1 }
      = { st with
          friendships := st.friendships ++
            [{ id := st.nextFid, requester := B, recipient := A,
               status := FStatus.rejected }],
          nextFid := st.nextFid + 1 } := by
    simp only [stepOp, rejectFriendRequestMark]
    rw [find?_append_of_none hpnone,
      List.map_append, map_eq_self_of (fun g hg => if_neg (hfresh g hg))]
    simp
  have hnoneAB : st.friendships.find? (fun f =>
      decide ((f.requester = A ∧ f.recipient = B)
        ∨ (f.requester = B ∧ f.recipient = A))) = none :=
    findFriendshipBetween_symm_none st B A hnone
  have hne' : ¬(B = A) := fun h => hne h.symm
  have h3 : stepOp (Op.friendRequest A B)
      { st with
        friendships := st.friendships ++
          [{ id := st.nextFid, requester := B, recipient := A,
             status := FStatus.rejected }],
        nextFid := st.nextFid + 1 }
      = { st with
          friendships := (st.friendships ++
            [{ id := st.nextFid, requester := B, recipient := A,
               status := FStatus.rejected }]) ++
            [{ id := st.nextFid + 1, requester := A, recipient := B,
               status := FStatus.pending }],
          nextFid := st.nextFid + 1 + 1 } := by
    simp only [stepOp, sendFriendRequest, createFriendship]
    unfold findFriendshipBetween
    rw [find?_append_of_none hnoneAB]
    simp [hB, hne']
  have happ : applyOps [Op.friendRequest B A, Op.friendRejectMark A st.nextFid,
      Op.friendRequest A B] st
      = { st with
          friendships := (st.friendships ++
            [{ id := st.nextFid, requester := B, recipient := A,
               status := FStatus.rejected }]) ++
            [{ id := st.nextFid + 1, requester := A, recipient := B,
               status := FStatus.pending }],
          nextFid := st.nextFid + 1 + 1 } := by
    show stepOp (Op.friendRequest A B) (stepOp (Op.friendRejectMark A st.nextFid)
      (stepOp (Op.friendRequest B A) st)) = _
    rw [h1, h2, h3]
  rw [happ]
  have hnotBA : ∀ x ∈ st.friendships, ¬(x.requester = B ∧ x.recipient = A) := by
    intro x hx
    have h := List.find?_eq_none.mp hnone x hx
    simp only [findFriendshipBetween, decide_eq_true_eq] at h
    tauto
  have hnotAB : ∀ x ∈ st.friendships, ¬(x.requester = A ∧ x.recipient = B) := by
    intro x hx
    have h := List.find?_eq_none.mp hnone x hx
    simp only [findFriendshipBetween, decide_eq_true_eq] at h
    tauto
  refine ⟨?_, ?_, ?_⟩
  · refine ⟨{ id := st.nextFid, requester := B, recipient := A, status := FStatus.rejected },
      ?_, rfl, rfl, rfl⟩
    simp
  · refine ⟨{ id := st.nextFid + 1, requester := A, recipient := B, status := FStatus.pending },
      ?_, rfl, rfl, rfl⟩
    simp
  · unfold orderedPairUnique at hord ⊢
    simp only [List.pairwise_append]
    refine ⟨⟨hord, by simp, ?_⟩, by simp, ?_⟩
    · intro a ha b hb
      simp only [List.mem_singleton] at hb
      subst hb
      exact hnotBA a ha
    · intro a ha b hb
      simp only [List.mem_singleton] at hb
      subst hb
      rcases List.mem_append.mp ha with h | h
      · exact hnotAB a h
      · simp only [List.mem_singleton] at h
        subst h
        rintro ⟨hba, -⟩
        exact hne hba.symm

/-- C5, witness: the concrete run from `stFr` with A = 1, B = 2. -/
theorem reject_then_reverse_request_breaks_unordered_uniqueness_witness :
    (1 : Nat) ≠ 2
      ∧ stFr.users.find? (fun u => decide (u.id = 1))
          = some { id := 1, status := PStatus.offline, lastSeen := none }
      ∧ stFr.users.find? (fun u => decide (u.id = 2))
          = some { id := 2, status := PStatus.offline, lastSeen := none }
      ∧ findFriendshipBetween stFr 2 1 = none
      ∧ (∀ f ∈ stFr.friendships, f.id < stFr.nextFid)
      ∧ orderedPairUnique stFr.friendships
      ∧ ((∃ f ∈ (applyOps [Op.friendRequest 2 1, Op.friendRejectMark 1 stFr.nextFid,
            Op.friendRequest 1 2] stFr).friendships,
          f.requester = 2 ∧ f.recipient = 1 ∧ f.status = FStatus.rejected)
        ∧ (∃ g ∈ (applyOps [Op.friendRequest 2 1, Op.friendRejectMark 1 stFr.nextFid,
            Op.friendRequest 1 2] stFr).friendships,
          g.requester = 1 ∧ g.recipient = 2 ∧ g.status = FStatus.pending)
        ∧ orderedPairUnique (applyOps [Op.friendRequest 2 1,
            Op.friendRejectMark 1 stFr.nextFid, Op.friendRequest 1 2] stFr).friendships) :=
  ⟨by decide, by decide, by decide, by decide, by decide,
    by unfold orderedPairUnique stFr; exact List.Pairwise.nil,
    reject_then_reverse_request_breaks_unordered_uniqueness stFr 1 2
      { id := 1, status := PStatus.offline, lastSeen := none }
      { id := 2, status := PStatus.offline, lastSeen := none }
      (by decide) (by decide) (by decide) (by decide)
      (by unfold WFFriend; decide)
      (by unfold orderedPairUnique stFr; exact List.Pairwise.nil)⟩

end ClashChat
